import Mathlib

/-!
Shallow embedding of the `get-repo-loc-stats` repository (three Python
scripts: `get_repo_prs.py`, `get_repo_loc_stats.py`,
`get_pr_file_changes.py`) and verification of the specification claims
about its pagination / filtering / aggregation pipelines.

The HTTP transport is modelled as data: a paginated list endpoint is a
finite list of `Response`s (one per page number, starting at page 1);
pages past the end of the list are empty, mirroring an exhausted GitHub
list endpoint.  Timestamps are modelled as structured UTC datetimes
compared field-lexicographically, exactly as Python `datetime`
comparison behaves on the parsed `created_at` / start-date values.
-/

namespace RepoStats

/-- Python `datetime` value (all values in play are UTC), compared
field-lexicographically as Python does. -/
structure DateTime where
  year : Nat
  month : Nat
  day : Nat
  hour : Nat
  minute : Nat
  second : Nat
deriving DecidableEq

/-- Python `a < b` on two `datetime` values: lexicographic on the fields. -/
def dtLt (a b : DateTime) : Bool :=
  if a.year ≠ b.year then decide (a.year < b.year)
  else if a.month ≠ b.month then decide (a.month < b.month)
  else if a.day ≠ b.day then decide (a.day < b.day)
  else if a.hour ≠ b.hour then decide (a.hour < b.hour)
  else if a.minute ≠ b.minute then decide (a.minute < b.minute)
  else decide (a.second < b.second)

/-- Python `a >= b` on two `datetime` values (total order, so `¬(a < b)`). -/
def dtGe (a b : DateTime) : Bool := !(dtLt a b)

/-- Embeds `datetime.strptime(start_date, "%Y-%m-%d").replace(tzinfo=timezone.utc)`:
the lower bound derived from a YYYY-MM-DD start date is midnight UTC of
that day. -/
def toSinceDatetime (y m d : Nat) : DateTime := ⟨y, m, d, 0, 0, 0⟩

/-- One page response of a paginated list endpoint: a 200 response with a
JSON array of items, or a non-200 status. -/
inductive Response (α : Type) where
  | ok (items : List α)
  | err (status : Nat)
deriving DecidableEq

/-- The `per_page = 100` page-size constant used by every fetch loop. -/
def per_page : Nat := 100

/-- The fields of a raw pull-request object from the list endpoint that
the pipelines read (`pr['user']['login']`, `pr['created_at']` parsed,
`pr['number']`, `pr['title']`, `pr['state']`, `pr.get('draft', False)`,
`pr.get('merged_at')`). -/
structure PullRequest where
  number : Nat
  login : String
  created_at : DateTime
  state : String
  draft : Bool
  merged_at : Option String
  title : String
deriving DecidableEq

/-- Python `s.lower()` on the strings in play: lower-case each character. -/
def lowerStr (s : String) : String := String.mk (s.data.map Char.toLower)

/-- The author test `pr['user']['login'].lower() == author.lower()` shared
by both PR fetch loops. -/
def authorMatches (login author : String) : Bool := lowerStr login == lowerStr author

namespace GetRepoPrs

/-- Embeds the inner per-page loop of `GitHubPRAnalyzer.get_pull_requests`
(lines 107-119 of `get_repo_prs.py`): build `filtered_prs` for one page;
`none` models the early `return pull_requests` taken when an item whose
author matches has `created_at < since_datetime` (the page's already
filtered items are discarded with the local `filtered_prs`). -/
def filterPage (author : String) (since : DateTime) : List PullRequest → Option (List PullRequest)
  | [] => some []
  | pr :: rest =>
    if authorMatches pr.login author then
      if dtGe pr.created_at since then
        (filterPage author since rest).map (fun f => pr :: f)
      else
        none
    else
      filterPage author since rest

/-- Embeds the page loop of `GitHubPRAnalyzer.get_pull_requests`: `acc` is
the `pull_requests` accumulator; a non-200 response returns `[]`; an
empty page breaks; early exit inside the page returns `acc`; a short page
(fewer than `per_page` items) breaks after extending. -/
def getPullRequestsGo (author : String) (since : DateTime) (acc : List PullRequest) :
    List (Response PullRequest) → List PullRequest
  | [] => acc
  | Response.err _ :: _ => []
  | Response.ok page :: rest =>
    if page.isEmpty then acc
    else
      match filterPage author since page with
      | none => acc
      | some f =>
        if page.length < per_page then acc ++ f
        else getPullRequestsGo author since (acc ++ f) rest

/-- Embeds `GitHubPRAnalyzer.get_pull_requests`, with the endpoint's pages
given as data. -/
def get_pull_requests (pages : List (Response PullRequest)) (author : String)
    (since : DateTime) : List PullRequest :=
  getPullRequestsGo author since [] pages

/-- The `pr_info` record built for each PR in
`GitHubPRAnalyzer.analyze_repo_prs` (fields the claims touch). -/
structure PRInfo where
  number : Nat
  title : String
  state : String
  draft : Bool
  merged_at : Option String
deriving DecidableEq

/-- Result dictionary of `GitHubPRAnalyzer.analyze_repo_prs` (the
statistic fields; constant metadata strings elided). -/
structure PRResult where
  total_prs : Nat
  open_prs : Nat
  closed_prs : Nat
  merged_prs : Nat
  draft_prs : Nat
  pull_requests : List PRInfo
deriving DecidableEq

/-- State-count step of the processing loop: `open_count`,
`closed_count`, `merged_count`, `draft_count` for one PR. -/
def countsFor (pr : PullRequest) : Nat × Nat × Nat × Nat :=
  ( if pr.state = "open" then 1 else 0
  , if pr.state = "closed" then 1 else 0
  , if pr.state = "closed" ∧ pr.merged_at.isSome then 1 else 0
  , if pr.draft then 1 else 0 )

/-- The processing loop of `analyze_repo_prs` (lines 207-243): accumulate
the four state counts and append one `pr_info` per PR, in iteration
order. -/
def prLoop : List PullRequest → Nat × Nat × Nat × Nat × List PRInfo
  | [] => (0, 0, 0, 0, [])
  | pr :: rest =>
    ((countsFor pr).1 + (prLoop rest).1,
     (countsFor pr).2.1 + (prLoop rest).2.1,
     (countsFor pr).2.2.1 + (prLoop rest).2.2.1,
     (countsFor pr).2.2.2 + (prLoop rest).2.2.2.1,
     ⟨pr.number, pr.title, pr.state, pr.draft, pr.merged_at⟩ :: (prLoop rest).2.2.2.2)

/-- Embeds `GitHubPRAnalyzer.analyze_repo_prs`: fetch, count, build the
detail records, then `pr_details.sort(key=lambda x: x['number'],
reverse=True)` (a stable descending sort by PR number). -/
def analyze_repo_prs (pages : List (Response PullRequest)) (author : String)
    (y m d : Nat) : PRResult :=
  let since := toSinceDatetime y m d
  let prs := get_pull_requests pages author since
  if prs.isEmpty then ⟨0, 0, 0, 0, 0, []⟩
  else
    ⟨prs.length, (prLoop prs).1, (prLoop prs).2.1, (prLoop prs).2.2.1, (prLoop prs).2.2.2.1,
      List.insertionSort (fun a b => b.number ≤ a.number) ((prLoop prs).2.2.2.2)⟩

end GetRepoPrs

namespace GetRepoLoc

/-- The fields of a raw commit object from the commit list endpoint that
the LOC pipeline reads (`commit['sha']`, `commit['commit']['message']`,
`commit['commit']['author']['date']`). -/
structure Commit where
  sha : String
  message : String
  date : String
deriving DecidableEq

/-- Embeds the page loop of `GitHubLOCAnalyzer.get_commits` (lines 55-86
of `get_repo_loc_stats.py`), also counting the page requests issued: a
non-200 response returns `[]`; an empty page breaks without extending; a
short page breaks after extending; running past the given pages means
the next request returns an empty page. -/
def getCommitsGo (acc : List Commit) (reqs : Nat) :
    List (Response Commit) → List Commit × Nat
  | [] => (acc, reqs + 1)
  | Response.err _ :: _ => ([], reqs + 1)
  | Response.ok page :: rest =>
    if page.isEmpty then (acc, reqs + 1)
    else if page.length < per_page then (acc ++ page, reqs + 1)
    else getCommitsGo (acc ++ page) (reqs + 1) rest

/-- Embeds `GitHubLOCAnalyzer.get_commits`, returning the accumulated
commits and the number of page requests issued. -/
def get_commits (pages : List (Response Commit)) : List Commit × Nat :=
  getCommitsGo [] 0 pages

/-- Python `message.split(chr(10))[0]`: first line of the commit message
(the prefix up to the first newline). -/
def firstLine (s : String) : String :=
  String.mk (s.data.takeWhile (fun c => c != '\n'))

/-- One entry of `commit_details` built by
`GitHubLOCAnalyzer.analyze_repo_loc`. -/
structure CommitDetail where
  sha : String
  message : String
  date : String
  additions : Nat
  deletions : Nat
  total_changes : Nat
deriving DecidableEq

/-- Result dictionary of `GitHubLOCAnalyzer.analyze_repo_loc` (statistic
fields; constant metadata strings elided). -/
structure LocResult where
  total_commits : Nat
  total_additions : Nat
  total_deletions : Nat
  total_changes : Nat
  commits : List CommitDetail
deriving DecidableEq

/-- The per-commit loop of `analyze_repo_loc` (lines 167-186): fold the
per-commit stats into the running totals and append one detail record
per commit, in iteration order.  `stats` embeds `get_commit_stats`
(its non-200 branch already yields `(0, 0)` inside it). -/
def locLoop (stats : String → Nat × Nat) : List Commit → Nat × Nat × List CommitDetail
  | [] => (0, 0, [])
  | c :: rest =>
    ((stats c.sha).1 + (locLoop stats rest).1,
     (stats c.sha).2 + (locLoop stats rest).2.1,
     ⟨c.sha, firstLine c.message, c.date, (stats c.sha).1, (stats c.sha).2,
       (stats c.sha).1 + (stats c.sha).2⟩ :: (locLoop stats rest).2.2)

/-- Embeds `GitHubLOCAnalyzer.analyze_repo_loc`.  Note that
`commit_details` is emitted in fetch order: no sort is applied to it
(only `print_summary` sorts a transient copy by `total_changes`). -/
def analyze_repo_loc (pages : List (Response Commit)) (stats : String → Nat × Nat) :
    LocResult :=
  let commits := (get_commits pages).1
  if commits.isEmpty then ⟨0, 0, 0, 0, []⟩
  else
    ⟨commits.length, (locLoop stats commits).1, (locLoop stats commits).2.1,
      (locLoop stats commits).1 + (locLoop stats commits).2.1,
      (locLoop stats commits).2.2⟩

end GetRepoLoc

namespace GetPrFiles

/-- The fields of a raw per-PR file object from the files endpoint
(`get_pr_file_changes.py`, lines 183-201).  `patch` and
`previous_filename` are optional keys of the raw JSON object. -/
structure FileRec where
  filename : String
  status : String
  additions : Nat
  deletions : Nat
  changes : Nat
  patch : Option String
  previous_filename : Option String
deriving DecidableEq

/-- The `file_info` record built by `GitHubPRFileAnalyzer.get_pr_files`:
`patch` is kept only when `include_patch` is set and the raw record has
one; `previous_filename` only for status `renamed`.  (`none` models an
absent dictionary key.) -/
structure FileInfo where
  filename : String
  status : String
  additions : Nat
  deletions : Nat
  changes : Nat
  patch : Option String
  previous_filename : Option String
deriving DecidableEq

/-- Builds one `file_info` from a raw file record. -/
def mkFileInfo (include_patch : Bool) (f : FileRec) : FileInfo :=
  { filename := f.filename
  , status := f.status
  , additions := f.additions
  , deletions := f.deletions
  , changes := f.changes
  , patch := if include_patch then f.patch else none
  , previous_filename := if f.status = "renamed" then f.previous_filename else none }

/-- Embeds the page loop of `GitHubPRFileAnalyzer.get_pr_files` (lines
167-209), counting requests: same pagination skeleton as the commit
fetch, with each raw file mapped to its `file_info`; a non-200 response
returns `[]`. -/
def getPrFilesGo (include_patch : Bool) (acc : List FileInfo) (reqs : Nat) :
    List (Response FileRec) → List FileInfo × Nat
  | [] => (acc, reqs + 1)
  | Response.err _ :: _ => ([], reqs + 1)
  | Response.ok page :: rest =>
    if page.isEmpty then (acc, reqs + 1)
    else if page.length < per_page then
      (acc ++ page.map (mkFileInfo include_patch), reqs + 1)
    else
      getPrFilesGo include_patch (acc ++ page.map (mkFileInfo include_patch)) (reqs + 1) rest

/-- Embeds `GitHubPRFileAnalyzer.get_pr_files`, returning the file
records and the number of page requests issued. -/
def get_pr_files (pages : List (Response FileRec)) (include_patch : Bool) :
    List FileInfo × Nat :=
  getPrFilesGo include_patch [] 0 pages

/-- Python `os.path.splitext(filename)[1]` (posix): the extension of the
basename, including its leading dot; empty when the basename, after its
leading dots, contains no dot. -/
def splitextExt (s : String) : String :=
  let b := (s.data.reverse.takeWhile (fun c => c != '/')).reverse
  let t := b.drop (b.takeWhile (fun c => c == '.')).length
  let afterRev := t.reverse.takeWhile (fun c => c != '.')
  if afterRev.length == t.length then ""
  else String.mk ('.' :: afterRev.reverse)

/-- The breakdown key `os.path.splitext(file['filename'])[1] or
'no_extension'` (line 297). -/
def extKey (filename : String) : String :=
  let e := splitextExt filename
  if e = "" then "no_extension" else e

/-- One value of the `file_extension_stats` mapping. -/
structure ExtStat where
  count : Nat
  additions : Nat
  deletions : Nat
deriving DecidableEq

/-- One update of the `file_extension_stats` dict for one file record
(lines 296-306): bump the existing bucket in place, or append a fresh
bucket at the end (dict insertion order). -/
def bumpExt (key : String) (f : FileInfo) :
    List (String × ExtStat) → List (String × ExtStat)
  | [] => [(key, ⟨1, f.additions, f.deletions⟩)]
  | (k, s) :: rest =>
    if k = key then
      (k, ⟨s.count + 1, s.additions + f.additions, s.deletions + f.deletions⟩) :: rest
    else
      (k, s) :: bumpExt key f rest

/-- Folds one PR's file list into the extension mapping, one update per
file record in order. -/
def addFiles (ext : List (String × ExtStat)) (files : List FileInfo) :
    List (String × ExtStat) :=
  files.foldl (fun e f => bumpExt (extKey f.filename) f e) ext

/-- Embeds the inner per-page loop of
`GitHubPRFileAnalyzer.get_pull_requests` (lines 111-131): like the plain
PR variant but with the merged-only and draft secondary filters applied
after the date test; `none` models the early `return pull_requests`. -/
def filterPageFC (author : String) (since : DateTime) (merged_only include_draft : Bool) :
    List PullRequest → Option (List PullRequest)
  | [] => some []
  | pr :: rest =>
    if authorMatches pr.login author then
      if dtGe pr.created_at since then
        if merged_only && !pr.merged_at.isSome then
          filterPageFC author since merged_only include_draft rest
        else if !include_draft && pr.draft then
          filterPageFC author since merged_only include_draft rest
        else
          (filterPageFC author since merged_only include_draft rest).map (fun f => pr :: f)
      else none
    else filterPageFC author since merged_only include_draft rest

/-- Embeds the page loop of `GitHubPRFileAnalyzer.get_pull_requests`. -/
def getPullRequestsGoFC (author : String) (since : DateTime)
    (merged_only include_draft : Bool) (acc : List PullRequest) :
    List (Response PullRequest) → List PullRequest
  | [] => acc
  | Response.err _ :: _ => []
  | Response.ok page :: rest =>
    if page.isEmpty then acc
    else
      match filterPageFC author since merged_only include_draft page with
      | none => acc
      | some f =>
        if page.length < per_page then acc ++ f
        else getPullRequestsGoFC author since merged_only include_draft (acc ++ f) rest

/-- Embeds `GitHubPRFileAnalyzer.get_pull_requests`. -/
def get_pull_requestsFC (pages : List (Response PullRequest)) (author : String)
    (since : DateTime) (merged_only include_draft : Bool) : List PullRequest :=
  getPullRequestsGoFC author since merged_only include_draft [] pages

/-- Python `if limit: prs = prs[:limit]` (lines 268-269): a `limit` of 0
is falsy and caps nothing. -/
def applyLimit (limit : Option Nat) (prs : List PullRequest) : List PullRequest :=
  match limit with
  | some n => if n = 0 then prs else prs.take n
  | none => prs

/-- One `pr_info` record of `analyze_pr_file_changes` (lines 309-323). -/
structure PRFileInfo where
  number : Nat
  title : String
  state : String
  draft : Bool
  merged_at : Option String
  total_files_changed : Nat
  total_additions : Nat
  total_deletions : Nat
  files : List FileInfo
deriving DecidableEq

/-- Result dictionary of `analyze_pr_file_changes`.  The early return for
an empty PR list (lines 257-265) carries only `total_prs` and
`pull_requests`; `none` in the optional fields models a key that is
absent from that dictionary. -/
structure PRFileResult where
  total_prs : Nat
  total_files_changed : Option Nat
  total_additions : Option Nat
  total_deletions : Option Nat
  file_extension_stats : Option (List (String × ExtStat))
  pull_requests : List PRFileInfo
deriving DecidableEq

/-- The per-PR loop of `analyze_pr_file_changes` (lines 280-325).
`last` carries the current values of the Python locals `pr_additions` /
`pr_deletions`, which are assigned only inside `if files:`; when a PR's
file list is empty, `pr_info` reads whatever the previous iteration left
there, and on the first iteration that read raises `NameError` —
modelled as `none`.  Returns the detail records in iteration order, the
three running grand totals, and the extension mapping. -/
def fcLoop (filesFor : Nat → List (Response FileRec)) (include_patch : Bool)
    (ext : List (String × ExtStat)) (last : Option (Nat × Nat)) :
    List PullRequest → Option (List PRFileInfo × Nat × Nat × Nat × List (String × ExtStat))
  | [] => some ([], 0, 0, 0, ext)
  | pr :: rest =>
    let files := (get_pr_files (filesFor pr.number) include_patch).1
    if files.isEmpty then
      match last with
      | none => none
      | some (pa, pd) =>
        (fcLoop filesFor include_patch ext last rest).map
          (fun r =>
            (⟨pr.number, pr.title, pr.state, pr.draft, pr.merged_at,
              files.length, pa, pd, files⟩ :: r.1,
             r.2.1, r.2.2.1, r.2.2.2.1, r.2.2.2.2))
    else
      let pa := (files.map FileInfo.additions).sum
      let pd := (files.map FileInfo.deletions).sum
      (fcLoop filesFor include_patch (addFiles ext files) (some (pa, pd)) rest).map
        (fun r =>
          (⟨pr.number, pr.title, pr.state, pr.draft, pr.merged_at,
            files.length, pa, pd, files⟩ :: r.1,
           files.length + r.2.1, pa + r.2.2.1, pd + r.2.2.2.1, r.2.2.2.2))

/-- Embeds `GitHubPRFileAnalyzer.analyze_pr_file_changes`: fetch the PRs,
apply the `limit` cap (Python `if limit:` — a limit of 0 is falsy and
caps nothing), run the per-PR loop, sort the detail records by PR number
descending and the extension mapping by count descending (both stable).
`none` models the `NameError` crash described at `fcLoop`. -/
def analyze_pr_file_changes (prPages : List (Response PullRequest))
    (filesFor : Nat → List (Response FileRec)) (author : String) (y m d : Nat)
    (include_patch : Bool) (limit : Option Nat) (merged_only include_draft : Bool) :
    Option PRFileResult :=
  let since := toSinceDatetime y m d
  let prs0 := get_pull_requestsFC prPages author since merged_only include_draft
  if prs0.isEmpty then some ⟨0, none, none, none, none, []⟩
  else
    let prs := applyLimit limit prs0
    match fcLoop filesFor include_patch [] none prs with
    | none => none
    | some t =>
      some ⟨prs.length, some t.2.1, some t.2.2.1, some t.2.2.2.1,
        some (List.insertionSort (fun a b => b.2.count ≤ a.2.count) t.2.2.2.2),
        List.insertionSort (fun a b => b.number ≤ a.number) t.1⟩

end GetPrFiles

/-! Accessors used to state properties about the optional fields of the
file-changes result (a `none` models an absent dictionary key), and
summation of the extension-breakdown triples. -/

/-- The detail-record list of a (possibly crashed) file-changes analysis
result; empty when the run crashed. -/
def prFileDetailsList (o : Option GetPrFiles.PRFileResult) : List GetPrFiles.PRFileInfo :=
  match o with
  | some r => r.pull_requests
  | none => []

/-- The extension-breakdown mapping of a (possibly crashed) file-changes
analysis result; empty when absent. -/
def extStatsList (o : Option GetPrFiles.PRFileResult) : List (String × GetPrFiles.ExtStat) :=
  match o with
  | some r => r.file_extension_stats.getD []
  | none => []

/-- Sum of the per-bucket file counts of an extension mapping. -/
def countSum (e : List (String × GetPrFiles.ExtStat)) : Nat :=
  (e.map (fun p => p.2.count)).sum

/-- Sum of the per-bucket additions of an extension mapping. -/
def addSum (e : List (String × GetPrFiles.ExtStat)) : Nat :=
  (e.map (fun p => p.2.additions)).sum

/-- Sum of the per-bucket deletions of an extension mapping. -/
def delSum (e : List (String × GetPrFiles.ExtStat)) : Nat :=
  (e.map (fun p => p.2.deletions)).sum

namespace Examples

/-! Concrete inputs used by the witnesses and counterexamples. -/

open GetRepoLoc GetPrFiles

/-- A creation time above the 2025-01-01 lower bound. -/
def tAbove : DateTime := ⟨2025, 3, 1, 0, 0, 0⟩

/-- A creation time below the 2025-01-01 lower bound. -/
def tBelow : DateTime := ⟨2024, 3, 1, 0, 0, 0⟩

/-- A closed, merged, non-draft pull request. -/
def mkPr (n : Nat) (login : String) (created : DateTime) : PullRequest :=
  ⟨n, login, created, "closed", false, some "2025-03-02T00:00:00Z", "title"⟩

/-- The page of the early-termination scenario of the spec: items 1-4 by
the requested author at/above the bound, item 5 by the author below the
bound, item 6 by a different author below the bound, four more below. -/
def pageC1 : List PullRequest :=
  [mkPr 10 "alice" tAbove, mkPr 9 "alice" tAbove, mkPr 8 "alice" tAbove,
   mkPr 7 "alice" tAbove, mkPr 6 "alice" tBelow, mkPr 5 "bob" tBelow,
   mkPr 4 "alice" tBelow, mkPr 3 "bob" tBelow, mkPr 2 "bob" tBelow,
   mkPr 1 "alice" tBelow]

/-- A page whose first item is below the bound but by a different author,
followed by an item by the requested author at/above the bound. -/
def pageC1b : List PullRequest := [mkPr 20 "bob" tBelow, mkPr 19 "alice" tAbove]

/-- A commit record. -/
def exCommit : Commit := ⟨"abc123", "a message", "2025-02-01T00:00:00Z"⟩

/-- A commit record with a given sha. -/
def cm (s : String) : Commit := ⟨s, "a message", "2025-02-01T00:00:00Z"⟩

/-- A full page of 100 commits. -/
def fullCommitPage : List Commit := List.replicate 100 exCommit

/-- A raw file record with five additions and two deletions. -/
def fileA : FileRec := ⟨"a.py", "modified", 5, 2, 7, none, none⟩

/-- Detail endpoint for the stale-totals scenario: PR 10 has one file;
every other files request fails with 404 (so its file list is empty). -/
def filesForC4 : Nat → List (Response FileRec) :=
  fun n => if n = 10 then [Response.ok [fileA]] else [Response.err 404]

/-- The three files of the extension-aggregation example of the spec. -/
def filesC8 : List FileRec :=
  [⟨"a.py", "modified", 10, 2, 12, none, none⟩,
   ⟨"b.py", "modified", 3, 1, 4, none, none⟩,
   ⟨"README", "modified", 1, 0, 1, none, none⟩]

/-- Detail endpoint answering every files request with the example page. -/
def filesForC8 : Nat → List (Response FileRec) := fun _ => [Response.ok filesC8]

/-- Result of analysing one PR with one file, used by the totals
consistency witness. -/
def resultC10 : PRFileResult :=
  (analyze_pr_file_changes [Response.ok [mkPr 10 "alice" tAbove]]
      (fun _ => [Response.ok [fileA]]) "alice" 2025 1 1 false none true false).getD
    ⟨0, none, none, none, none, []⟩

/-- Its extension breakdown. -/
def extC10 : List (String × ExtStat) := resultC10.file_extension_stats.getD []

end Examples

end RepoStats

open RepoStats RepoStats.GetRepoPrs RepoStats.GetRepoLoc RepoStats.GetPrFiles RepoStats.Examples

/-- Helper: a stable insertion sort by a descending numeric key is
pairwise-sorted for that key. -/
theorem pairwise_insertionSort_keyDesc {α : Type} (k : α → Nat) (l : List α) :
    (List.insertionSort (fun a b => k b ≤ k a) l).Pairwise (fun a b => k b ≤ k a) := by
  haveI : IsTotal α (fun a b => k b ≤ k a) := ⟨fun a b => Nat.le_total (k b) (k a)⟩
  haveI : IsTrans α (fun a b => k b ≤ k a) := ⟨fun _ _ _ h1 h2 => Nat.le_trans h2 h1⟩
  exact List.sorted_insertionSort _ l

/-- Helper: the LOC detail loop emits one record per commit, in order. -/
theorem locLoop_map_sha (stats : String → Nat × Nat) :
    ∀ cs : List Commit, ((locLoop stats cs).2.2).map CommitDetail.sha = cs.map Commit.sha := by
  intro cs
  induction cs with
  | nil => rfl
  | cons c rest ih => simp [locLoop, ih]

/-- C5: date filtering is boundary-inclusive: an item by the requested
author whose creation time is strictly earlier than the midnight-UTC
lower bound derived from the YYYY-MM-DD start date is excluded (the scan
takes the early-return branch), and one whose creation time is equal to
or later than the bound is included. -/
theorem C5_boundary_inclusive_filter (author : String) (y m d : Nat) (pr : PullRequest)
    (h : authorMatches pr.login author = true) :
    (dtLt pr.created_at (toSinceDatetime y m d) = true →
      filterPage author (toSinceDatetime y m d) [pr] = none) ∧
    (dtLt pr.created_at (toSinceDatetime y m d) = false →
      filterPage author (toSinceDatetime y m d) [pr] = some [pr]) := by
  constructor
  · intro hlt
    simp [filterPage, h, dtGe, hlt]
  · intro hlt
    simp [filterPage, h, dtGe, hlt]

/-- C5 witness: an item created exactly at the 2025-01-01 midnight bound
is included (boundary inclusive). -/
theorem C5_boundary_inclusive_filter_witness :
    filterPage "alice" (toSinceDatetime 2025 1 1)
        [mkPr 7 "alice" (toSinceDatetime 2025 1 1)]
      = some [mkPr 7 "alice" (toSinceDatetime 2025 1 1)] :=
  (C5_boundary_inclusive_filter "alice" 2025 1 1
    (mkPr 7 "alice" (toSinceDatetime 2025 1 1)) (by decide)).2 (by decide)

/-- C6: the author test passes exactly when the item's author login and
the requested author are equal after lower-casing; in particular an item
authored by "Alice" matches filter values "alice" and "ALICE". -/
theorem C6_case_insensitive_author_match :
    (∀ login author : String,
      authorMatches login author = true ↔ lowerStr login = lowerStr author) ∧
    authorMatches "Alice" "alice" = true ∧
    authorMatches "Alice" "ALICE" = true := by
  refine ⟨fun l a => ?_, by decide, by decide⟩
  simp [authorMatches]

/-- C2 counterexample: after a successful full first page of 100 commits,
a 500 on the second page makes the commit fetch return the empty list,
not the 100 accumulated commits. -/
theorem C2_counterexample :
    (get_commits [Response.ok fullCommitPage, Response.err 500]).1 = [] ∧
    fullCommitPage ≠ [] := by
  refine ⟨rfl, ?_⟩
  simp [fullCommitPage]

/-- C3 counterexample: the LOC pipeline emits its commit detail list in
fetch order; commits fetched with identifiers 1, 3, 2 come out as
1, 3, 2, not sorted descending — so not all three pipelines sort the
final item list by identifier descending. -/
theorem C3_counterexample :
    ((analyze_repo_loc [Response.ok [cm "1", cm "3", cm "2"]]
        (fun _ => (1, 2))).commits.map CommitDetail.sha) = ["1", "3", "2"] ∧
    (["1", "3", "2"] : List String) ≠ ["3", "2", "1"] := by
  refine ⟨rfl, ?_⟩
  decide

/-- C4: the code contradicts the claim — a PR whose own file list is
empty (here PR 5, whose files request fails) is reported with the
previous PR's totals (5 additions, 2 deletions) instead of the sum over
its own (empty) file list, and when the first processed PR has an empty
file list the analysis crashes (Python NameError, modelled as `none`). -/
theorem C4_stale_per_item_totals :
    ((analyze_pr_file_changes
        [Response.ok [mkPr 10 "alice" tAbove, mkPr 5 "alice" tAbove]]
        filesForC4 "alice" 2025 1 1 false none true false).map
      (fun r => r.pull_requests.map (fun p =>
        (p.number, p.total_additions, p.total_deletions, p.total_files_changed, p.files))))
      = some [(10, 5, 2, 1, [⟨"a.py", "modified", 5, 2, 7, none, none⟩]),
              (5, 5, 2, 0, [])] ∧
    analyze_pr_file_changes
        [Response.ok [mkPr 5 "alice" tAbove, mkPr 10 "alice" tAbove]]
        filesForC4 "alice" 2025 1 1 false none true false = none :=
  ⟨rfl, rfl⟩

/-- C9: a 404 on the first page yields an all-zero result in the PR and
LOC pipelines, but in the file-changes pipeline the returned dictionary
carries only `total_prs = 0` and an empty item list: the
`total_files_changed`, `total_additions`, `total_deletions` and
`file_extension_stats` keys are absent (`none`), not 0 — the code slip
the claim exposes (the script's own summary printer reads those keys
unconditionally). -/
theorem C9_missing_total_fields :
    analyze_repo_prs [Response.err 404] "alice" 2025 1 1 = ⟨0, 0, 0, 0, 0, []⟩ ∧
    analyze_repo_loc [Response.err 404] (fun _ => (0, 0)) = ⟨0, 0, 0, 0, []⟩ ∧
    analyze_pr_file_changes [Response.err 404] (fun _ => []) "alice" 2025 1 1
        false none true false
      = some ⟨0, none, none, none, none, []⟩ :=
  ⟨rfl, rfl, rfl⟩

/-- Helper: a page containing an item whose author matches and whose
creation time is below the bound makes the page scan take the
early-return branch, whatever came before or after it on the page. -/
theorem filterPage_early_exit (author : String) (since : DateTime) (bad : PullRequest)
    (h1 : authorMatches bad.login author = true) (h2 : dtLt bad.created_at since = true) :
    ∀ pre rest : List PullRequest, filterPage author since (pre ++ bad :: rest) = none := by
  intro pre rest
  induction pre with
  | nil => simp [filterPage, h1, dtGe, h2]
  | cons p ps ih =>
    simp only [List.cons_append, filterPage]
    by_cases hm : authorMatches p.login author
    · by_cases hg : dtGe p.created_at since
      · simp [hm, hg, ih]
      · simp [hm, hg]
    · simp [hm, ih]

/-- C1 counterexample: on the spec's own scenario (items 1-4 by the
author at/above the bound, item 5 by the author below it, item 6 by a
different author below it) the fetch returns the empty list — items 1-4
are NOT included, because the early return discards the current page's
already-matched items.  And a below-bound item by a different author
(page `pageC1b`) does not terminate the scan at all: the later matching
item is returned. -/
theorem C1_counterexample :
    get_pull_requests [Response.ok pageC1] "alice" (toSinceDatetime 2025 1 1) = [] ∧
    ([] : List PullRequest) ≠ [mkPr 10 "alice" tAbove, mkPr 9 "alice" tAbove,
      mkPr 8 "alice" tAbove, mkPr 7 "alice" tAbove] ∧
    get_pull_requests [Response.ok pageC1b] "alice" (toSinceDatetime 2025 1 1)
      = [mkPr 19 "alice" tAbove] ∧
    ([mkPr 19 "alice" tAbove] : List PullRequest) ≠ [] := by
  exact ⟨rfl, by decide, rfl, by decide⟩

/-- C1 amended: the early exit triggers only at an item whose author
matches AND whose creation time is below the bound; when it triggers,
the fetch returns exactly the accumulator from previous pages,
discarding the whole current page (including its earlier matching items)
and all later pages.  An item below the bound by a non-matching author
is merely skipped (its date is never compared). -/
theorem C1_early_exit_only_matching_author :
    (∀ (author : String) (since : DateTime) (acc pre rest : List PullRequest)
        (bad : PullRequest) (more : List (Response PullRequest)),
      authorMatches bad.login author = true → dtLt bad.created_at since = true →
      getPullRequestsGo author since acc (Response.ok (pre ++ bad :: rest) :: more) = acc) ∧
    (∀ (author : String) (since : DateTime) (pr : PullRequest) (rest : List PullRequest),
      authorMatches pr.login author = false →
      filterPage author since (pr :: rest) = filterPage author since rest) := by
  constructor
  · intro author since acc pre rest bad more h1 h2
    have hne : (pre ++ bad :: rest).isEmpty = false := by
      cases pre <;> rfl
    simp [getPullRequestsGo, hne, filterPage_early_exit author since bad h1 h2 pre rest]
  · intro author since pr rest hm
    simp [filterPage, hm]

/-- C1 witness: with one PR already accumulated, a page holding a
matching above-bound item, then a matching below-bound item, then a
non-matching item returns just the accumulator; and a non-matching
below-bound head is skipped by the page scan. -/
theorem C1_early_exit_only_matching_author_witness :
    getPullRequestsGo "alice" (toSinceDatetime 2025 1 1) [mkPr 30 "alice" tAbove]
        [Response.ok [mkPr 9 "alice" tAbove, mkPr 6 "alice" tBelow, mkPr 5 "bob" tBelow]]
      = [mkPr 30 "alice" tAbove] ∧
    filterPage "alice" (toSinceDatetime 2025 1 1)
        [mkPr 20 "bob" tBelow, mkPr 19 "alice" tAbove]
      = filterPage "alice" (toSinceDatetime 2025 1 1) [mkPr 19 "alice" tAbove] :=
  ⟨C1_early_exit_only_matching_author.1 "alice" (toSinceDatetime 2025 1 1)
      [mkPr 30 "alice" tAbove] [mkPr 9 "alice" tAbove] [mkPr 5 "bob" tBelow]
      (mkPr 6 "alice" tBelow) [] (by decide) (by decide),
   C1_early_exit_only_matching_author.2 "alice" (toSinceDatetime 2025 1 1)
      (mkPr 20 "bob" tBelow) [mkPr 19 "alice" tAbove] (by decide)⟩

/-- Helper: the commit-fetch loop walks through a run of exactly-full
pages, accumulating their items and one request each. -/
theorem getCommitsGo_full_pages (pref : List (List Commit))
    (h : ∀ l ∈ pref, l.length = per_page) :
    ∀ (acc : List Commit) (reqs : Nat) (tail : List (Response Commit)),
      getCommitsGo acc reqs (pref.map Response.ok ++ tail)
        = getCommitsGo (acc ++ pref.flatten) (reqs + pref.length) tail := by
  induction pref with
  | nil => intro acc reqs tail; simp
  | cons p ps ih =>
    intro acc reqs tail
    have hp : p.length = per_page := h p (by simp)
    have hne : p.isEmpty = false := by
      cases p with
      | nil => simp [per_page] at hp
      | cons a l => rfl
    have hlt : ¬ p.length < per_page := by omega
    have ihh : ∀ l ∈ ps, l.length = per_page := fun l hl => h l (by simp [hl])
    have hstep : getCommitsGo acc reqs ((p :: ps).map Response.ok ++ tail)
        = getCommitsGo (acc ++ p) (reqs + 1) (ps.map Response.ok ++ tail) := by
      simp [getCommitsGo, hne, hlt]
    have e1 : acc ++ p ++ ps.flatten = acc ++ (p :: ps).flatten := by
      simp [List.append_assoc]
    have e2 : reqs + 1 + ps.length = reqs + (p :: ps).length := by
      simp
      omega
    rw [hstep, ih ihh (acc ++ p) (reqs + 1) tail, e1, e2]

/-- C2 amended: when a page of the commit-list fetch fails with a
non-200 status after any number of earlier full pages succeeded, the
fetch returns the empty list (the accumulated commits are discarded),
exactly as the PR-list fetch does. -/
theorem C2_error_aborts_with_empty (pref : List (List Commit))
    (h : ∀ l ∈ pref, l.length = per_page) (s : Nat) (rest : List (Response Commit)) :
    get_commits (pref.map Response.ok ++ Response.err s :: rest)
      = ([], pref.length + 1) := by
  unfold get_commits
  rw [getCommitsGo_full_pages pref h [] 0 (Response.err s :: rest)]
  simp [getCommitsGo]

/-- C2 witness: one successful full page of 100 commits followed by a 500
yields the empty list after 2 requests. -/
theorem C2_error_aborts_with_empty_witness :
    get_commits [Response.ok fullCommitPage, Response.err 500] = ([], 2) :=
  C2_error_aborts_with_empty [fullCommitPage]
    (by simp [fullCommitPage, per_page]) 500 []

/-- C7: the paginated fetch stops exactly at the first page shorter than
the page-size constant 100 or empty: after a run of exactly-full pages
followed by a short (possibly empty) page it has issued one request per
full page plus one, ignoring anything after the short page; and when
every supplied page is full it issues one further request, stopping only
upon receiving the empty page past them. -/
theorem C7_pagination_stop (pref : List (List Commit))
    (h : ∀ l ∈ pref, l.length = per_page)
    (short : List Commit) (hs : short.length < per_page)
    (rest : List (Response Commit)) :
    get_commits (pref.map Response.ok ++ Response.ok short :: rest)
      = (pref.flatten ++ short, pref.length + 1) ∧
    get_commits (pref.map Response.ok) = (pref.flatten, pref.length + 1) := by
  constructor
  · unfold get_commits
    rw [getCommitsGo_full_pages pref h [] 0 (Response.ok short :: rest)]
    by_cases he : short.isEmpty
    · have : short = [] := by simpa using he
      subst this
      simp [getCommitsGo]
    · have hne : short.isEmpty = false := by simpa using he
      simp [getCommitsGo, hne, hs]
  · unfold get_commits
    rw [← List.append_nil (pref.map Response.ok),
      getCommitsGo_full_pages pref h [] 0 []]
    simp [getCommitsGo]

/-- C7 witness: pages of sizes [100, 100, 37] take exactly 3 requests;
pages of sizes [100, 100, 100] take a 4th request and stop only on the
empty page after them. -/
theorem C7_pagination_stop_witness :
    (get_commits [Response.ok fullCommitPage, Response.ok fullCommitPage,
        Response.ok (List.replicate 37 exCommit)]).2 = 3 ∧
    (get_commits [Response.ok fullCommitPage, Response.ok fullCommitPage,
        Response.ok fullCommitPage]).2 = 4 :=
  ⟨congrArg Prod.snd
    ((C7_pagination_stop [fullCommitPage, fullCommitPage]
      (by simp [fullCommitPage, per_page]) (List.replicate 37 exCommit)
      (by simp [per_page]) []).1),
   congrArg Prod.snd
    ((C7_pagination_stop [fullCommitPage, fullCommitPage, fullCommitPage]
      (by simp [fullCommitPage, per_page]) [] (by simp [per_page]) []).2)⟩

/-- C3 amended: the two PR pipelines sort their final detail list by PR
number descending (stably), e.g. numbers fetched as 12, 45, 3 come out
as 45, 12, 3; the commit pipeline emits its detail list in fetch order
(commits have no numeric identifier and no sort is applied). -/
theorem C3_final_ordering :
    (∀ (pages : List (Response PullRequest)) (author : String) (y m d : Nat),
      ((analyze_repo_prs pages author y m d).pull_requests).Pairwise
        (fun a b => b.number ≤ a.number)) ∧
    (∀ (prPages : List (Response PullRequest)) (filesFor : Nat → List (Response FileRec))
        (author : String) (y m d : Nat) (ip : Bool) (lim : Option Nat) (mo idr : Bool),
      (prFileDetailsList
          (analyze_pr_file_changes prPages filesFor author y m d ip lim mo idr)).Pairwise
        (fun a b => b.number ≤ a.number)) ∧
    (∀ (pages : List (Response Commit)) (stats : String → Nat × Nat),
      (analyze_repo_loc pages stats).commits.map CommitDetail.sha
        = ((get_commits pages).1).map Commit.sha) ∧
    ((analyze_repo_prs [Response.ok [mkPr 12 "alice" tAbove, mkPr 45 "alice" tAbove,
        mkPr 3 "alice" tAbove]] "alice" 2025 1 1).pull_requests.map PRInfo.number
      = [45, 12, 3]) := by
  refine ⟨?_, ?_, ?_, rfl⟩
  · intro pages author y m d
    by_cases h : (get_pull_requests pages author (toSinceDatetime y m d)).isEmpty
    · simp [analyze_repo_prs, h]
    · simp [analyze_repo_prs, h]
      exact pairwise_insertionSort_keyDesc (fun i : PRInfo => i.number) _
  · intro prPages filesFor author y m d ip lim mo idr
    by_cases h0 : (get_pull_requestsFC prPages author (toSinceDatetime y m d) mo idr).isEmpty
    · simp [analyze_pr_file_changes, h0, prFileDetailsList]
    · rcases hfc : fcLoop filesFor ip [] none
          (applyLimit lim (get_pull_requestsFC prPages author (toSinceDatetime y m d) mo idr))
        with _ | t
      · simp [analyze_pr_file_changes, h0, hfc, prFileDetailsList]
      · simp [analyze_pr_file_changes, h0, hfc, prFileDetailsList]
        exact pairwise_insertionSort_keyDesc (fun i : PRFileInfo => i.number) _
  · intro pages stats
    by_cases h : ((get_commits pages).1).isEmpty
    · have hnil : (get_commits pages).1 = [] := by simpa using h
      simp [analyze_repo_loc, h, hnil]
    · simp [analyze_repo_loc, h, locLoop_map_sha]

/-- C8 counterexample: for the spec's example files the breakdown keys
are ".py" and "no_extension"; the key retains the leading dot of the
extension, so it is not the substring after the last dot ("py"), and no
"py" bucket exists. -/
theorem C8_counterexample :
    extStatsList (analyze_pr_file_changes [Response.ok [mkPr 10 "alice" tAbove]]
        filesForC8 "alice" 2025 1 1 false none true false)
      = [(".py", ⟨2, 13, 3⟩), ("no_extension", ⟨1, 1, 0⟩)] ∧
    (extStatsList (analyze_pr_file_changes [Response.ok [mkPr 10 "alice" tAbove]]
        filesForC8 "alice" 2025 1 1 false none true false)).lookup "py" = none ∧
    (".py" : String) ≠ "py" := by
  exact ⟨rfl, rfl, by decide⟩

/-- C8 amended: the breakdown key is `os.path.splitext`'s extension with
its leading dot (or "no_extension" when that extension is empty); the
triples accumulate once per file record; the final mapping is ordered by
file count descending; and on the spec's example the buckets are ".py"
with (2, 13, 3) first and "no_extension" with (1, 1, 0) second. -/
theorem C8_extension_breakdown :
    (∀ filename : String,
      extKey filename =
        if splitextExt filename = "" then "no_extension" else splitextExt filename) ∧
    extKey "a.py" = ".py" ∧ extKey "b.py" = ".py" ∧ extKey "README" = "no_extension" ∧
    (∀ (prPages : List (Response PullRequest)) (filesFor : Nat → List (Response FileRec))
        (author : String) (y m d : Nat) (ip : Bool) (lim : Option Nat) (mo idr : Bool),
      (extStatsList
          (analyze_pr_file_changes prPages filesFor author y m d ip lim mo idr)).Pairwise
        (fun a b => b.2.count ≤ a.2.count)) ∧
    extStatsList (analyze_pr_file_changes [Response.ok [mkPr 10 "alice" tAbove]]
        filesForC8 "alice" 2025 1 1 false none true false)
      = [(".py", ⟨2, 13, 3⟩), ("no_extension", ⟨1, 1, 0⟩)] := by
  refine ⟨fun filename => rfl, rfl, rfl, rfl, ?_, rfl⟩
  intro prPages filesFor author y m d ip lim mo idr
  by_cases h0 : (get_pull_requestsFC prPages author (toSinceDatetime y m d) mo idr).isEmpty
  · simp [analyze_pr_file_changes, h0, extStatsList]
  · rcases hfc : fcLoop filesFor ip [] none
        (applyLimit lim (get_pull_requestsFC prPages author (toSinceDatetime y m d) mo idr))
      with _ | t
    · simp [analyze_pr_file_changes, h0, hfc, extStatsList]
    · simp [analyze_pr_file_changes, h0, hfc, extStatsList]
      exact pairwise_insertionSort_keyDesc (fun p : String × ExtStat => p.2.count) _

/-- Helper: one dict update adds one to the bucket counts and the file's
additions and deletions to the bucket sums. -/
theorem bumpExt_sums (key : String) (f : FileInfo) :
    ∀ e : List (String × ExtStat),
      countSum (bumpExt key f e) = countSum e + 1 ∧
      addSum (bumpExt key f e) = addSum e + f.additions ∧
      delSum (bumpExt key f e) = delSum e + f.deletions := by
  intro e
  induction e with
  | nil => simp [bumpExt, countSum, addSum, delSum]
  | cons p rest ih =>
    obtain ⟨k, s⟩ := p
    obtain ⟨ih1, ih2, ih3⟩ := ih
    by_cases hk : k = key
    · refine ⟨?_, ?_, ?_⟩ <;> simp [bumpExt, hk, countSum, addSum, delSum] <;> omega
    · refine ⟨?_, ?_, ?_⟩ <;>
        simp [bumpExt, hk, countSum, addSum, delSum] at ih1 ih2 ih3 ⊢ <;> omega

/-- Helper: folding one file list into the mapping adds one count per
file and the files' additions and deletions to the bucket sums. -/
theorem addFiles_sums :
    ∀ (fs : List FileInfo) (e : List (String × ExtStat)),
      countSum (addFiles e fs) = countSum e + fs.length ∧
      addSum (addFiles e fs) = addSum e + (fs.map FileInfo.additions).sum ∧
      delSum (addFiles e fs) = delSum e + (fs.map FileInfo.deletions).sum := by
  intro fs
  induction fs with
  | nil => intro e; simp [addFiles]
  | cons f rest ih =>
    intro e
    obtain ⟨hb1, hb2, hb3⟩ := bumpExt_sums (extKey f.filename) f e
    obtain ⟨hr1, hr2, hr3⟩ := ih (bumpExt (extKey f.filename) f e)
    have hstep : addFiles e (f :: rest) = addFiles (bumpExt (extKey f.filename) f e) rest := by
      simp [addFiles]
    rw [hstep]
    refine ⟨?_, ?_, ?_⟩ <;> simp [hr1, hr2, hr3, hb1, hb2, hb3] <;> omega

/-- Helper: the per-PR loop's grand totals equal what it folded into the
extension mapping on top of the initial mapping. -/
theorem fcLoop_sums (filesFor : Nat → List (Response FileRec)) (ip : Bool) :
    ∀ (prs : List PullRequest) (ext : List (String × ExtStat)) (last : Option (Nat × Nat))
      (t : List PRFileInfo × Nat × Nat × Nat × List (String × ExtStat)),
      fcLoop filesFor ip ext last prs = some t →
      countSum t.2.2.2.2 = countSum ext + t.2.1 ∧
      addSum t.2.2.2.2 = addSum ext + t.2.2.1 ∧
      delSum t.2.2.2.2 = delSum ext + t.2.2.2.1 := by
  intro prs
  induction prs with
  | nil =>
    intro ext last t ht
    simp [fcLoop] at ht
    rw [← ht]
    simp
  | cons pr rest ih =>
    intro ext last t ht
    simp only [fcLoop] at ht
    by_cases hf : ((get_pr_files (filesFor pr.number) ip).1).isEmpty
    · rcases last with _ | pa_pd
      · simp [hf] at ht
      · obtain ⟨pa, pd⟩ := pa_pd
        simp [hf] at ht
        rcases ht with ⟨a, a1, a2, a3, b, hr', hgr⟩
        obtain ⟨i1, i2, i3⟩ := ih ext (some (pa, pd)) (a, a1, a2, a3, b) hr'
        rw [← hgr]
        exact ⟨i1, i2, i3⟩
    · simp [hf] at ht
      rcases ht with ⟨a, a1, a2, a3, b, hr', hgr⟩
      obtain ⟨i1, i2, i3⟩ :=
        ih (addFiles ext (get_pr_files (filesFor pr.number) ip).1)
          (some (((get_pr_files (filesFor pr.number) ip).1.map FileInfo.additions).sum,
                 ((get_pr_files (filesFor pr.number) ip).1.map FileInfo.deletions).sum))
          (a, a1, a2, a3, b) hr'
      obtain ⟨s1, s2, s3⟩ := addFiles_sums ((get_pr_files (filesFor pr.number) ip).1) ext
      rw [← hgr]
      refine ⟨?_, ?_, ?_⟩ <;> simp only [] <;>
        simp [i1, i2, i3, s1, s2, s3] <;> omega

/-- Helper: permuting the mapping preserves the three bucket sums. -/
theorem extSums_perm {l1 l2 : List (String × ExtStat)} (h : l1.Perm l2) :
    countSum l1 = countSum l2 ∧ addSum l1 = addSum l2 ∧ delSum l1 = delSum l2 :=
  ⟨(h.map _).sum_eq, (h.map _).sum_eq, (h.map _).sum_eq⟩

/-- C10: whenever the file-changes analysis completes with the breakdown
present (at least one fetched PR, no crash), the grand totals agree with
the extension breakdown: total files changed equals the sum of the
bucket counts, and total additions/deletions equal the sums of the
buckets' additions/deletions. -/
theorem C10_totals_consistent (prPages : List (Response PullRequest))
    (filesFor : Nat → List (Response FileRec)) (author : String) (y m d : Nat)
    (ip : Bool) (lim : Option Nat) (mo idr : Bool) (r : PRFileResult)
    (h : analyze_pr_file_changes prPages filesFor author y m d ip lim mo idr = some r)
    (e : List (String × ExtStat)) (he : r.file_extension_stats = some e) :
    r.total_files_changed = some (countSum e) ∧
    r.total_additions = some (addSum e) ∧
    r.total_deletions = some (delSum e) := by
  by_cases h0 : (get_pull_requestsFC prPages author (toSinceDatetime y m d) mo idr).isEmpty
  · simp [analyze_pr_file_changes, h0] at h
    rw [← h] at he
    simp at he
  · rcases hfc : fcLoop filesFor ip [] none
        (applyLimit lim (get_pull_requestsFC prPages author (toSinceDatetime y m d) mo idr))
      with _ | t
    · simp [analyze_pr_file_changes, h0, hfc] at h
    · simp [analyze_pr_file_changes, h0, hfc] at h
      obtain ⟨s1, s2, s3⟩ := fcLoop_sums filesFor ip _ [] none t hfc
      obtain ⟨p1, p2, p3⟩ := extSums_perm
        (List.perm_insertionSort (fun a b => b.2.count ≤ a.2.count) t.2.2.2.2)
      rw [← h] at he ⊢
      simp at he
      rw [← he]
      have c0 : countSum [] = 0 := rfl
      have a0 : addSum [] = 0 := rfl
      have d0 : delSum [] = 0 := rfl
      refine ⟨?_, ?_, ?_⟩ <;> simp [p1, p2, p3, s1, s2, s3, c0, a0, d0]

/-- C10 witness: on a run with one PR and one file, the grand totals
equal the breakdown sums. -/
theorem C10_totals_consistent_witness :
    resultC10.total_files_changed = some (countSum extC10) ∧
    resultC10.total_additions = some (addSum extC10) ∧
    resultC10.total_deletions = some (delSum extC10) :=
  C10_totals_consistent [Response.ok [mkPr 10 "alice" tAbove]]
    (fun _ => [Response.ok [fileA]]) "alice" 2025 1 1 false none true false
    resultC10 rfl extC10 rfl
